import Mathlib

/-!
Shallow embedding of the cbb-crypto-buy-bot repository core
(signal computation, backtest state machines, live decision engine),
together with theorems settling the frozen claims about it.

Sources embedded:
* `src/backtest/24h_low_range_backtest.py`   (round-trip variant)
* `src/backtest/7_days_period_24h_low_range_backtest.py` (buy-only variant)
* `src/data/24h_low_average_price_getter.py` (signal metrics)
* `src/start_trading.py`                     (live decision engine)

Conventions:
* Prices and USD amounts are `Rat` (exact rationals standing for Python floats).
* Bar timestamps are `Nat`, counted in whole minutes since an epoch; the
  `datetime.minute` component is `t % 60` and the calendar date
  (`datetime.date()`) is `t / 1440` (1440 minutes per day).  This models the
  1-minute-candle timestamps the backtests iterate over.
* Live-engine wall-clock times (`datetime.now()`) are `Int` seconds.
* Python dicts keyed by calendar date are association lists `List (Nat × Nat)`
  with lookup defaulting to 0 (`dict.get(k, 0)` semantics).
* External collaborator calls (exchange queries, order submission) are passed
  in as `Except String _` values: `.error` is the call raising an exception.
-/

/-- `timestamp.minute` for a timestamp in epoch minutes. -/
def tsMinute (t : Nat) : Nat := t % 60

/-- `timestamp.date()` for a timestamp in epoch minutes: the calendar-day index. -/
def tsDate (t : Nat) : Nat := t / 1440

/-- One OHLCV candle row of the DataFrame produced by `fetch_historical_data`. -/
structure Bar where
  timestamp : Nat
  opn : Rat
  high : Rat
  low : Rat
  close : Rat
  volume : Rat
deriving Repr, DecidableEq

/-- Minimum of a list of rationals (0 on the empty list; only ever used on
nonempty window slices). -/
def listMin : List Rat → Rat
  | [] => 0
  | x :: xs => xs.foldl min x

/-- The trailing window of `low` values ending at index `i`:
indices `max (0, i+1-window) .. i` (Nat subtraction realises the `max 0`). -/
def windowSlice (window : Nat) (lows : List Rat) (i : Nat) : List Rat :=
  (lows.take (i + 1)).drop (i + 1 - window)

/-- `data['low'].rolling(window=window, min_periods=1).min()` evaluated at
index `i`: the minimum low over the trailing window ending at `i`. -/
def wlow (window : Nat) (lows : List Rat) (i : Nat) : Rat :=
  listMin (windowSlice window lows i)

/-- The whole rolling-minimum column, aligned 1:1 with the input column. -/
def rollingMin (window : Nat) (lows : List Rat) : List Rat :=
  (List.range lows.length).map (wlow window lows)

/-- One row of the DataFrame after `calculate_24h_low_range` (backtest files):
the bar data plus the `24h_low`, `buy_range_upper` and `in_buy_range` columns. -/
structure SignalRow where
  timestamp : Nat
  low : Rat
  close : Rat
  low24 : Rat
  buy_range_upper : Rat
  in_buy_range : Bool
deriving Repr, DecidableEq

/-- `calculate_24h_low_range` (identical in both backtest files):
`24h_low` is the rolling min with `min_periods=1`,
`buy_range_upper = 24h_low * (1 + range_percentage / 100)`,
`in_buy_range = (close >= 24h_low) & (close <= buy_range_upper)`. -/
def calculate_24h_low_range (data : List Bar) (window : Nat)
    (range_percentage : Rat) : List SignalRow :=
  List.zipWith
    (fun b wl =>
      { timestamp := b.timestamp
        low := b.low
        close := b.close
        low24 := wl
        buy_range_upper := wl * (1 + range_percentage / 100)
        in_buy_range := decide (wl ≤ b.close) &&
          decide (b.close ≤ wl * (1 + range_percentage / 100)) })
    data (rollingMin window (data.map (·.low)))

/-- One row of the DataFrame after `calculate_24h_low_metrics`
(`src/data/24h_low_average_price_getter.py`): as `SignalRow` plus the
`distance_from_low_pct` column; the window is fixed at 1440. -/
structure MetricRow where
  timestamp : Nat
  low : Rat
  close : Rat
  low24 : Rat
  buy_range_upper : Rat
  distance_from_low_pct : Rat
  in_buy_range : Bool
deriving Repr, DecidableEq

/-- `LowPriceAnalyzer.calculate_24h_low_metrics`: rolling 1440-minute low,
buy-range upper bound, distance from the low in percent, and the in-range flag. -/
def calculate_24h_low_metrics (range_percentage : Rat) (data : List Bar) :
    List MetricRow :=
  List.zipWith
    (fun b wl =>
      { timestamp := b.timestamp
        low := b.low
        close := b.close
        low24 := wl
        buy_range_upper := wl * (1 + range_percentage / 100)
        distance_from_low_pct := (b.close - wl) / wl * 100
        in_buy_range := decide (wl ≤ b.close) &&
          decide (b.close ≤ wl * (1 + range_percentage / 100)) })
    data (rollingMin 1440 (data.map (·.low)))

/-! ## Round-trip backtest (`src/backtest/24h_low_range_backtest.py`) -/

/-- One element of the `trades` list appended on a TAKE_PROFIT or STOP_LOSS
exit in `backtest_24h_low_strategy` (round-trip variant). -/
structure Trade where
  entry_price : Rat
  exit_price : Rat
  profit_loss : Rat
  profit_pct : Rat
  entry_time : Nat
  exit_time : Nat
  coins_traded : Rat
  exit_reason : String
deriving Repr, DecidableEq

/-- The loop state of the round-trip `backtest_24h_low_strategy`:
`position` (0 = flat, 1 = long), `entry_price`, `coins_owned`, the `trades`
list, the running `portfolio_value`, and the minute tracker
`last_check_minute` used to simulate one check per minute.  (The print-only
analytics accumulators of the source -- `price_stats`, `buy_opportunities`,
`all_24h_lows`, `entry_prices`, `trade_count` -- do not feed back into any
trading decision and are not part of the state.) -/
structure RTState where
  position : Nat
  entry_price : Rat
  coins_owned : Rat
  trades : List Trade
  portfolio_value : Rat
  last_check_minute : Nat
deriving Repr, DecidableEq

/-- Initial state of the round-trip backtest loop
(`position = 0`, `portfolio_value = position_size_usd`, `last_check_minute = 0`). -/
def rtInit (position_size_usd : Rat) : RTState :=
  { position := 0
    entry_price := 0
    coins_owned := 0
    trades := []
    portfolio_value := position_size_usd
    last_check_minute := 0 }

/-- One iteration of the round-trip backtest loop body.  The `pd.isna` guard
of the source is vacuous here: with `min_periods=1` the `24h_low` column is
never NaN on NaN-free input.  A check boundary fires when the bar's minute
component differs from `last_check_minute`; then either a buy (in range and
flat), a take-profit exit (checked first), or a stop-loss exit runs. -/
def rtStep (take_profit_pct stop_loss_pct : Rat) (s : RTState)
    (row : SignalRow) : RTState :=
  let current_minute := tsMinute row.timestamp
  if current_minute = s.last_check_minute then s
  else
    let s1 := { s with last_check_minute := current_minute }
    if row.in_buy_range = true ∧ s1.position = 0 then
      { s1 with
          position := 1
          entry_price := row.close
          coins_owned := s1.portfolio_value / row.close }
    else if s1.position = 1 then
      let profit_pct := (row.close - s1.entry_price) / s1.entry_price * 100
      if take_profit_pct ≤ profit_pct then
        let portfolio_value := s1.coins_owned * row.close
        let profit_loss := portfolio_value - s1.coins_owned * s1.entry_price
        { s1 with
            position := 0
            portfolio_value := portfolio_value
            trades := s1.trades ++
              [{ entry_price := s1.entry_price
                 exit_price := row.close
                 profit_loss := profit_loss
                 profit_pct := profit_pct
                 entry_time := row.timestamp
                 exit_time := row.timestamp
                 coins_traded := s1.coins_owned
                 exit_reason := "TAKE_PROFIT" }]
            coins_owned := 0 }
      else if profit_pct ≤ -stop_loss_pct then
        let portfolio_value := s1.coins_owned * row.close
        let profit_loss := portfolio_value - s1.coins_owned * s1.entry_price
        { s1 with
            position := 0
            portfolio_value := portfolio_value
            trades := s1.trades ++
              [{ entry_price := s1.entry_price
                 exit_price := row.close
                 profit_loss := profit_loss
                 profit_pct := profit_pct
                 entry_time := row.timestamp
                 exit_time := row.timestamp
                 coins_traded := s1.coins_owned
                 exit_reason := "STOP_LOSS" }]
            coins_owned := 0 }
      else s1
    else s1

/-- The loop of the round-trip `backtest_24h_low_strategy` (window fixed at
1440 as in the source), returning the loop-end state. -/
def backtest_24h_low_strategy (coin_data : List Bar) (range_percentage
    position_size_usd take_profit_pct stop_loss_pct : Rat) : RTState :=
  (calculate_24h_low_range coin_data 1440 range_percentage).foldl
    (rtStep take_profit_pct stop_loss_pct) (rtInit position_size_usd)

/-- The final portfolio value reported by the round-trip backtest: if still
long at the end of the series, mark-to-market at the last close. -/
def rtFinalPortfolio (coin_data : List Bar) (range_percentage
    position_size_usd take_profit_pct stop_loss_pct : Rat) : Rat :=
  let s := backtest_24h_low_strategy coin_data range_percentage
    position_size_usd take_profit_pct stop_loss_pct
  if s.position = 1 then
    s.coins_owned * (coin_data.getLast?.map (·.close)).getD 0
  else s.portfolio_value

/-! ## Buy-only accumulation backtest
(`src/backtest/7_days_period_24h_low_range_backtest.py`) -/

/-- Lookup in a date-keyed Python dict with default 0 (`d.get(k, 0)`). -/
def dictGet (m : List (Nat × Nat)) (k : Nat) : Nat :=
  (m.lookup k).getD 0

/-- `k in d` for a date-keyed Python dict. -/
def dictContains (m : List (Nat × Nat)) (k : Nat) : Bool :=
  (m.lookup k).isSome

/-- `d[k] = v` for a date-keyed Python dict: replace the binding if the key is
present, else append it. -/
def dictSet (m : List (Nat × Nat)) (k v : Nat) : List (Nat × Nat) :=
  match m with
  | [] => [(k, v)]
  | p :: rest => if p.1 = k then (k, v) :: rest else p :: dictSet rest k v

/-- One element of the `buys` list appended on an executed buy in the buy-only
`backtest_24h_low_strategy`. -/
structure BuyRecord where
  buy_price : Rat
  buy_amount : Rat
  coins_bought : Rat
  buy_time : Nat
  low24 : Rat
  distance_pct : Rat
  day : Nat
deriving Repr, DecidableEq

/-- The loop state of the buy-only `backtest_24h_low_strategy`:
`total_coins_owned`, the `buys` log, `remaining_capital`, the minute tracker,
the per-calendar-date buy counters `daily_buys`, the `current_day` tracker and
the running `total_spent`.  (Print-only analytics are again omitted.) -/
structure AccState where
  total_coins_owned : Rat
  buys : List BuyRecord
  remaining_capital : Rat
  last_check_minute : Nat
  daily_buys : List (Nat × Nat)
  current_day : Option Nat
  total_spent : Rat
deriving Repr, DecidableEq

/-- Initial state of the buy-only backtest loop. -/
def accInit (total_capital : Rat) : AccState :=
  { total_coins_owned := 0
    buys := []
    remaining_capital := total_capital
    last_check_minute := 0
    daily_buys := []
    current_day := none
    total_spent := 0 }

/-- The day-tracking prologue of the buy-only backtest loop body: when the
bar's calendar date differs from `current_day`, record it and initialise its
buy counter to 0 if the date was never seen. -/
def accDayInit (s : AccState) (day_key : Nat) : AccState :=
  if s.current_day ≠ some day_key then
    { s with
        current_day := some day_key
        daily_buys :=
          if dictContains s.daily_buys day_key then s.daily_buys
          else dictSet s.daily_buys day_key 0 }
  else s

/-- One iteration of the buy-only backtest loop body: track the current day
(via `accDayInit`), then, at a check boundary (minute component changed), buy
iff the price is in the buy range, capital covers `max_buy_amount`, and the
day's buy counter is under `max_buys_per_day`; the executed buy spends
`min(max_buy_amount, remaining_capital)`. -/
def accStep (max_buy_amount : Rat) (max_buys_per_day : Nat) (s : AccState)
    (row : SignalRow) : AccState :=
  let day_key := tsDate row.timestamp
  let current_minute := tsMinute row.timestamp
  let s0 := accDayInit s day_key
  if current_minute = s0.last_check_minute then s0
  else
    let s1 := { s0 with last_check_minute := current_minute }
    if row.in_buy_range = true ∧ max_buy_amount ≤ s1.remaining_capital ∧
        dictGet s1.daily_buys day_key < max_buys_per_day then
      let buy_amount := min max_buy_amount s1.remaining_capital
      let coins_bought := buy_amount / row.close
      let distance_from_low := (row.close - row.low24) / row.low24 * 100
      { s1 with
          total_coins_owned := s1.total_coins_owned + coins_bought
          remaining_capital := s1.remaining_capital - buy_amount
          total_spent := s1.total_spent + buy_amount
          daily_buys := dictSet s1.daily_buys day_key
            (dictGet s1.daily_buys day_key + 1)
          buys := s1.buys ++
            [{ buy_price := row.close
               buy_amount := buy_amount
               coins_bought := coins_bought
               buy_time := row.timestamp
               low24 := row.low24
               distance_pct := distance_from_low
               day := day_key }] }
    else s1

/-- The loop of the buy-only `backtest_24h_low_strategy` (window fixed at
1440), returning the loop-end state.  (`backtest_24h_low_strategy_silent` in
the source runs the identical loop without printing.) -/
def backtest_24h_low_strategy_buyonly (coin_data : List Bar)
    (range_percentage total_capital max_buy_amount : Rat)
    (max_buys_per_day : Nat) : AccState :=
  (calculate_24h_low_range coin_data 1440 range_percentage).foldl
    (accStep max_buy_amount max_buys_per_day) (accInit total_capital)

/-- `remaining_capital + total_coins_owned * final_price`, the final portfolio
value of the buy-only backtest. -/
def accFinalPortfolio (coin_data : List Bar)
    (range_percentage total_capital max_buy_amount : Rat)
    (max_buys_per_day : Nat) : Rat :=
  let s := backtest_24h_low_strategy_buyonly coin_data range_percentage
    total_capital max_buy_amount max_buys_per_day
  s.remaining_capital +
    s.total_coins_owned * (coin_data.getLast?.map (·.close)).getD 0

/-- Sum of `buy_amount` over a buy log. -/
def sumBuyAmounts (buys : List BuyRecord) : Rat :=
  (buys.map (·.buy_amount)).sum

/-- Number of recorded buys whose bar timestamp falls on calendar date `d`. -/
def countBuysOnDay (d : Nat) (buys : List BuyRecord) : Nat :=
  (buys.filter (fun b => tsDate b.buy_time = d)).length

/-! ## Live decision engine (`src/start_trading.py`) -/

/-- The per-coin position record returned by the account query (only the
signed size `szi` is read by the engine). -/
structure PositionData where
  szi : Rat
deriving Repr, DecidableEq

/-- `TradingBotV01.coin_mapping`. -/
def coin_mapping : List (String × String) :=
  [("PUMP", "PUMP"), ("ENA", "ENA"), ("XRP", "XRP"), ("PAXG", "PAXG")]

/-- `coin_mapping.get(coin, coin)`. -/
def coinMapGet (coin : String) : String :=
  ((coin_mapping.lookup coin)).getD coin

/-- The fixed trading configuration attributes set in
`TradingBotV01.__init__` (`position_value_usd = 20`,
`max_position_value_usd = 140`, `buy_block_minutes = 60`), kept as a record so
the theorems quantify over them. -/
structure BotConfig where
  position_value_usd : Rat
  max_position_value_usd : Rat
  buy_block_minutes : Int
deriving Repr, DecidableEq

/-- The values the source hard-codes in `__init__`. -/
def defaultConfig : BotConfig :=
  { position_value_usd := 20
    max_position_value_usd := 140
    buy_block_minutes := 60 }

/-- `TradingBotV01.get_current_positions`: queries `info.user_state` and keeps
the positions whose coin is in `coin_mapping.values()`.  An exception raised
by the query (`user_state = .error _`) is caught, logged, and turned into the
empty mapping. -/
def get_current_positions
    (user_state : Except String (List (String × PositionData))) :
    List (String × PositionData) :=
  match user_state with
  | .error _ => []
  | .ok asset_positions =>
      asset_positions.filter
        (fun p => (coin_mapping.map (·.2)).contains p.1)

/-- `TradingBotV01.get_position_info`. -/
def get_position_info (coin : String)
    (user_state : Except String (List (String × PositionData))) :
    Option PositionData :=
  (get_current_positions user_state).lookup (coinMapGet coin)

/-- `TradingBotV01.has_position`. -/
def has_position (coin : String)
    (user_state : Except String (List (String × PositionData))) : Bool :=
  match (get_current_positions user_state).lookup (coinMapGet coin) with
  | some p => decide (0 < |p.szi|)
  | none => false

/-- `TradingBotV01.get_position_value_usd`: position size times current mid
price.  Any exception inside the `try` block -- in particular a failing
`info.all_mids()` call (`all_mids = .error _`) -- is caught, logged, and
turned into the value `0.0`; a missing position, zero size or zero price also
yield `0.0`. -/
def get_position_value_usd (coin : String)
    (user_state : Except String (List (String × PositionData)))
    (all_mids : Except String (List (String × Rat))) : Rat :=
  match get_position_info coin user_state with
  | none => 0
  | some position_info =>
      if |position_info.szi| = 0 then 0
      else
        match all_mids with
        | .error _ => 0
        | .ok mids =>
            let current_price := ((mids.lookup (coinMapGet coin))).getD 0
            if current_price = 0 then 0
            else |position_info.szi| * current_price

/-- `TradingBotV01.can_buy_more`: `(can_buy, current_value,
remaining_capacity)` with `can_buy = remaining_capacity >=
position_value_usd` and `remaining_capacity = max_position_value_usd -
current_value`. -/
def can_buy_more (cfg : BotConfig) (coin : String)
    (user_state : Except String (List (String × PositionData)))
    (all_mids : Except String (List (String × Rat))) : Bool × Rat × Rat :=
  let current_value := get_position_value_usd coin user_state all_mids
  let remaining_capacity := cfg.max_position_value_usd - current_value
  (decide (cfg.position_value_usd ≤ remaining_capacity), current_value,
    remaining_capacity)

/-- `TradingBotV01.can_buy_time_wise`: true iff no buy was recorded for the
coin, or `now - last_buy_time >= buy_block_minutes` (times in seconds,
`required_wait = timedelta(minutes=buy_block_minutes)`). -/
def can_buy_time_wise (cfg : BotConfig)
    (last_buy_timestamps : List (String × Int)) (now : Int)
    (coin : String) : Bool :=
  match last_buy_timestamps.lookup coin with
  | none => true
  | some last_buy_time =>
      decide (cfg.buy_block_minutes * 60 ≤ now - last_buy_time)

/-- The output of the 24h-low analysis consumed by
`process_coin_analysis` (the fields it reads). -/
structure Analysis where
  coin : String
  signal_type : String
  buy_signal : Bool
  distance_from_low_pct : Rat
  current_price : Rat
  low24 : Rat
deriving Repr, DecidableEq

/-- `TradingBotV01.create_market_buy_order`, reduced to its returned status:
ok iff the metadata lookup finds the coin's `szDecimals`, the exchange call
does not raise, and the exchange reports status ok.  (The computed order size
`position_value_usd / current_price` rounded to `szDecimals` is passed to the
external exchange call and does not affect the returned status.) -/
def create_market_buy_order_status (coin : String)
    (sz_decimals : List (String × Nat))
    (order_response : Except String Bool) : Bool :=
  match order_response with
  | .error _ => false
  | .ok exchange_ok =>
      if (sz_decimals.lookup (coinMapGet coin)).isSome then exchange_ok
      else false

/-- Which diagnostic message string `process_coin_analysis` stores in
`result['message']`; each tag stands for one of the source's f-strings. -/
inductive MessageTag
  /-- the buy branch message (success text or order error text) -/
  | marketBuyOutcome
  /-- "No buy signal - price ...% above 24h low" -/
  | noSignal
  /-- the `time_block_msg` produced by `can_buy_time_wise` -/
  | timeBlocked
  /-- "Position limit reached (...)" -/
  | positionLimitReached
  /-- "Insufficient capacity (...)" -/
  | insufficientCapacity
  /-- "Waiting for buy opportunity (...)" -/
  | waiting
deriving Repr, DecidableEq

/-- The `result` dict built by `process_coin_analysis` (message strings
abstracted to `MessageTag`). -/
structure ActionResult where
  coin : String
  signal : String
  buy_signal : Bool
  distance_from_low : Rat
  has_position : Bool
  current_value : Rat
  remaining_capacity : Rat
  action : String
  success : Bool
  message : MessageTag
deriving Repr, DecidableEq

/-- `TradingBotV01.process_coin_analysis`: evaluate the three gates, emit a
market buy iff `buy_signal and can_buy_more and can_buy_time_wise`, otherwise
emit `NONE` with the first matching diagnostic in the source's `if`/`elif`
order (no signal, then time-blocked, then capacity-blocked, then waiting). -/
def process_coin_analysis (cfg : BotConfig) (analysis : Analysis)
    (user_state : Except String (List (String × PositionData)))
    (all_mids : Except String (List (String × Rat)))
    (last_buy_timestamps : List (String × Int)) (now : Int)
    (sz_decimals : List (String × Nat))
    (order_response : Except String Bool) : ActionResult :=
  let coin := analysis.coin
  let has_pos := has_position coin user_state
  let cbm := can_buy_more cfg coin user_state all_mids
  let can_buy_more_flag := cbm.1
  let current_value := cbm.2.1
  let remaining_capacity := cbm.2.2
  let can_buy_time_flag := can_buy_time_wise cfg last_buy_timestamps now coin
  let base : ActionResult :=
    { coin := coin
      signal := analysis.signal_type
      buy_signal := analysis.buy_signal
      distance_from_low := analysis.distance_from_low_pct
      has_position := has_pos
      current_value := current_value
      remaining_capacity := remaining_capacity
      action := "NONE"
      success := false
      message := .waiting }
  if analysis.buy_signal = true ∧ can_buy_more_flag = true ∧
      can_buy_time_flag = true then
    let order_ok := create_market_buy_order_status coin sz_decimals
      order_response
    { base with
        action := "MARKET_BUY"
        success := order_ok
        message := .marketBuyOutcome }
  else
    { base with
        message :=
          if analysis.buy_signal ≠ true then .noSignal
          else if can_buy_time_flag ≠ true then .timeBlocked
          else if can_buy_more_flag ≠ true then
            (if cfg.max_position_value_usd ≤ current_value then
              .positionLimitReached
            else .insufficientCapacity)
          else .waiting }

/-- `record_buy_timestamp`, executed only after a confirmed successful order:
sets the coin's last-buy timestamp to `now`. -/
def record_buy_timestamp (last_buy_timestamps : List (String × Int))
    (coin : String) (now : Int) : List (String × Int) :=
  (coin, now) :: last_buy_timestamps.filter (fun p => p.1 ≠ coin)

/-! ## Concrete inputs used by the claim witnesses and counterexamples -/

/-- A bar with the given timestamp, low and close (open = close and
high = max low close, keeping the OHLC invariant). -/
def mkBar (t : Nat) (lo cl : Rat) : Bar :=
  { timestamp := t, opn := cl, high := max lo cl, low := lo, close := cl,
    volume := 1 }

/-- Three bars driving one entry (minute 1), one take-profit exit (minute 2)
and a second entry (minute 3) of the round-trip backtest. -/
def dataReentry : List Bar :=
  [mkBar 1 100 100, mkBar 2 100 105, mkBar 3 100 100]

/-- Two bars driving one entry and one take-profit exit. -/
def dataOneTrade : List Bar :=
  [mkBar 1 100 100, mkBar 2 100 105]

/-- The spec scenario: lows `[100, 98, 102]`, window 3 bars accumulated,
close 102 at the third bar. -/
def dataScenario : List Bar :=
  [mkBar 1 100 100, mkBar 2 98 98, mkBar 3 102 102]

/-- Two in-range bars whose timestamps both have minute component 0. -/
def dataMinuteZero : List Bar :=
  [mkBar 0 100 100, mkBar 60 99 99]

/-- A signal row at a check boundary with the price exactly on the 24h low. -/
def rowAtLow : SignalRow :=
  { timestamp := 1, low := 100, close := 100, low24 := 100,
    buy_range_upper := 102, in_buy_range := true }

/-- An analysis snapshot with an active buy signal for XRP. -/
def analysisBuy : Analysis :=
  { coin := "XRP", signal_type := "BUY_RANGE", buy_signal := true,
    distance_from_low_pct := 0, current_price := 2, low24 := 2 }

/-- An analysis snapshot without a buy signal for XRP. -/
def analysisWait : Analysis :=
  { coin := "XRP", signal_type := "WAIT", buy_signal := false,
    distance_from_low_pct := 5, current_price := 2, low24 := 2 }

/-! ## Generic helper lemmas -/

theorem foldl_preserve {α β : Type} (f : α → β → α) (P : α → Prop)
    (hstep : ∀ s b, P s → P (f s b)) :
    ∀ (l : List β) (s : α), P s → P (l.foldl f s) := by
  intro l
  induction l with
  | nil => intro s hs; exact hs
  | cons b bs ih => intro s hs; exact ih (f s b) (hstep s b hs)

theorem foldl_preserve_mem {α β : Type} (f : α → β → α) (P : α → Prop) :
    ∀ (l : List β), (∀ b ∈ l, ∀ s, P s → P (f s b)) →
      ∀ s, P s → P (l.foldl f s) := by
  intro l
  induction l with
  | nil => intro _ s hs; exact hs
  | cons b bs ih =>
      intro hstep s hs
      exact ih (fun c hc t ht => hstep c (List.mem_cons_of_mem b hc) t ht)
        (f s b) (hstep b (List.mem_cons_self b bs) s hs)

theorem foldl_take_succ {α β : Type} (f : α → β → α) (init : α)
    (l : List β) (i : Nat) (h : i < l.length) :
    (l.take (i + 1)).foldl f init =
      f ((l.take i).foldl f init) (l.get ⟨i, h⟩) := by
  have htake : l.take (i + 1) = l.take i ++ [l.get ⟨i, h⟩] := by
    rw [List.take_succ, List.getElem?_eq_getElem h]
    simp
  rw [htake, List.foldl_append]
  rfl

theorem foldl_min_le_init : ∀ (l : List Rat) (a : Rat), l.foldl min a ≤ a := by
  intro l
  induction l with
  | nil => intro a; simp
  | cons x xs ih =>
      intro a
      calc (x :: xs).foldl min a = xs.foldl min (min a x) := rfl
        _ ≤ min a x := ih (min a x)
        _ ≤ a := min_le_left a x

theorem foldl_min_le_mem :
    ∀ (l : List Rat) (a x : Rat), x ∈ l → l.foldl min a ≤ x := by
  intro l
  induction l with
  | nil => intro a x hx; cases hx
  | cons y ys ih =>
      intro a x hx
      rcases List.mem_cons.mp hx with h | h
      · subst h
        calc (x :: ys).foldl min a = ys.foldl min (min a x) := rfl
          _ ≤ min a x := foldl_min_le_init ys (min a x)
          _ ≤ x := min_le_right a x
      · exact ih (min a y) x h

theorem foldl_min_eq_or_mem :
    ∀ (l : List Rat) (a : Rat), l.foldl min a = a ∨ l.foldl min a ∈ l := by
  intro l
  induction l with
  | nil => intro a; left; rfl
  | cons x xs ih =>
      intro a
      rcases ih (min a x) with h | h
      · rcases min_choice a x with h2 | h2
        · left
          calc (x :: xs).foldl min a = xs.foldl min (min a x) := rfl
            _ = min a x := h
            _ = a := h2
        · right
          have : (x :: xs).foldl min a = x := by
            calc (x :: xs).foldl min a = xs.foldl min (min a x) := rfl
              _ = min a x := h
              _ = x := h2
          rw [this]
          exact List.mem_cons_self x xs
      · right
        exact List.mem_cons_of_mem x h

theorem listMin_le_mem (l : List Rat) (hl : l ≠ []) (x : Rat) (hx : x ∈ l) :
    listMin l ≤ x := by
  cases l with
  | nil => exact absurd rfl hl
  | cons y ys =>
      rcases List.mem_cons.mp hx with h | h
      · subst h; exact foldl_min_le_init ys x
      · exact foldl_min_le_mem ys y x h

theorem listMin_mem (l : List Rat) (hl : l ≠ []) : listMin l ∈ l := by
  cases l with
  | nil => exact absurd rfl hl
  | cons y ys =>
      rcases foldl_min_eq_or_mem ys y with h | h
      · show ys.foldl min y ∈ y :: ys
        rw [h]; exact List.mem_cons_self y ys
      · exact List.mem_cons_of_mem y h

/-! ## Lemmas about the rolling window -/

theorem windowSlice_length (w : Nat) (lows : List Rat) (i : Nat)
    (hi : i < lows.length) :
    (windowSlice w lows i).length = (i + 1) - (i + 1 - w) := by
  simp only [windowSlice, List.length_drop, List.length_take]
  omega

theorem windowSlice_get (w : Nat) (lows : List Rat) (i : Nat)
    (hi : i < lows.length) (t : Nat) (ht : t < (windowSlice w lows i).length) :
    ∃ hj : (i + 1 - w) + t < lows.length,
      (windowSlice w lows i).get ⟨t, ht⟩ = lows.get ⟨(i + 1 - w) + t, hj⟩ := by
  have hlen := windowSlice_length w lows i hi
  have hj : (i + 1 - w) + t < lows.length := by omega
  refine ⟨hj, ?_⟩
  simp [windowSlice, List.get_eq_getElem, List.getElem_drop, List.getElem_take]

theorem windowSlice_ne_nil (w : Nat) (lows : List Rat) (i : Nat)
    (hw : 0 < w) (hi : i < lows.length) : windowSlice w lows i ≠ [] := by
  have hlen := windowSlice_length w lows i hi
  intro h
  rw [h] at hlen
  simp at hlen
  omega

theorem wlow_le (w : Nat) (lows : List Rat) (i : Nat) (hw : 0 < w)
    (hi : i < lows.length) (j : Nat) (hj : j < lows.length)
    (h1 : i + 1 - w ≤ j) (h2 : j ≤ i) :
    wlow w lows i ≤ lows.get ⟨j, hj⟩ := by
  have hlen := windowSlice_length w lows i hi
  have ht : j - (i + 1 - w) < (windowSlice w lows i).length := by omega
  obtain ⟨hj2, hget⟩ := windowSlice_get w lows i hi (j - (i + 1 - w)) ht
  have hidx : (i + 1 - w) + (j - (i + 1 - w)) = j := by omega
  have hmem : lows.get ⟨j, hj⟩ ∈ windowSlice w lows i := by
    rw [List.mem_iff_get]
    refine ⟨⟨j - (i + 1 - w), ht⟩, ?_⟩
    rw [hget]
    congr 1
    exact Fin.ext hidx
  exact listMin_le_mem _ (windowSlice_ne_nil w lows i hw hi) _ hmem

theorem wlow_attained (w : Nat) (lows : List Rat) (i : Nat) (hw : 0 < w)
    (hi : i < lows.length) :
    ∃ j, ∃ hj : j < lows.length, i + 1 - w ≤ j ∧ j ≤ i ∧
      wlow w lows i = lows.get ⟨j, hj⟩ := by
  have hlen := windowSlice_length w lows i hi
  have hmem := listMin_mem _ (windowSlice_ne_nil w lows i hw hi)
  rw [List.mem_iff_get] at hmem
  obtain ⟨⟨t, ht⟩, hget⟩ := hmem
  obtain ⟨hj, hget2⟩ := windowSlice_get w lows i hi t ht
  refine ⟨(i + 1 - w) + t, hj, by omega, by omega, ?_⟩
  show listMin (windowSlice w lows i) = lows.get ⟨(i + 1 - w) + t, hj⟩
  rw [← hget]
  exact hget2

/-! ## Lemmas about the signal columns -/

theorem calculate_24h_low_range_length (data : List Bar) (w : Nat)
    (pct : Rat) : (calculate_24h_low_range data w pct).length = data.length := by
  simp [calculate_24h_low_range, rollingMin]

theorem calculate_24h_low_range_get (data : List Bar) (w : Nat) (pct : Rat)
    (i : Nat) (hi : i < (calculate_24h_low_range data w pct).length)
    (hid : i < data.length) :
    (calculate_24h_low_range data w pct).get ⟨i, hi⟩ =
      { timestamp := (data.get ⟨i, hid⟩).timestamp
        low := (data.get ⟨i, hid⟩).low
        close := (data.get ⟨i, hid⟩).close
        low24 := wlow w (data.map (·.low)) i
        buy_range_upper := wlow w (data.map (·.low)) i * (1 + pct / 100)
        in_buy_range :=
          decide (wlow w (data.map (·.low)) i ≤ (data.get ⟨i, hid⟩).close) &&
          decide ((data.get ⟨i, hid⟩).close ≤
            wlow w (data.map (·.low)) i * (1 + pct / 100)) } := by
  simp [calculate_24h_low_range, rollingMin, List.get_eq_getElem,
    List.getElem_zipWith, List.getElem_map, List.getElem_range]

theorem calculate_24h_low_metrics_length (pct : Rat) (data : List Bar) :
    (calculate_24h_low_metrics pct data).length = data.length := by
  simp [calculate_24h_low_metrics, rollingMin]

theorem calculate_24h_low_metrics_get (pct : Rat) (data : List Bar)
    (i : Nat) (hi : i < (calculate_24h_low_metrics pct data).length)
    (hid : i < data.length) :
    (calculate_24h_low_metrics pct data).get ⟨i, hi⟩ =
      { timestamp := (data.get ⟨i, hid⟩).timestamp
        low := (data.get ⟨i, hid⟩).low
        close := (data.get ⟨i, hid⟩).close
        low24 := wlow 1440 (data.map (·.low)) i
        buy_range_upper := wlow 1440 (data.map (·.low)) i * (1 + pct / 100)
        distance_from_low_pct :=
          ((data.get ⟨i, hid⟩).close - wlow 1440 (data.map (·.low)) i) /
            wlow 1440 (data.map (·.low)) i * 100
        in_buy_range :=
          decide (wlow 1440 (data.map (·.low)) i ≤ (data.get ⟨i, hid⟩).close) &&
          decide ((data.get ⟨i, hid⟩).close ≤
            wlow 1440 (data.map (·.low)) i * (1 + pct / 100)) } := by
  simp [calculate_24h_low_metrics, rollingMin, List.get_eq_getElem,
    List.getElem_zipWith, List.getElem_map, List.getElem_range]

/-! ## Lemmas about the date-keyed dict -/

theorem dictGet_dictSet_self (m : List (Nat × Nat)) (k v : Nat) :
    dictGet (dictSet m k v) k = v := by
  induction m with
  | nil => simp [dictSet, dictGet, List.lookup]
  | cons p rest ih =>
      by_cases h : p.1 = k
      · simp [dictSet, h, dictGet, List.lookup]
      · have hbeq : (k == p.1) = false := by
          simp [BEq.beq]
          omega
        simp [dictSet, h, dictGet, List.lookup, hbeq] at ih ⊢
        exact ih

theorem dictGet_dictSet_ne (m : List (Nat × Nat)) (k v k' : Nat)
    (h : k' ≠ k) : dictGet (dictSet m k v) k' = dictGet m k' := by
  induction m with
  | nil =>
      have hbeq : (k' == k) = false := by
        simp [BEq.beq]
        omega
      simp [dictSet, dictGet, List.lookup, hbeq]
  | cons p rest ih =>
      by_cases hp : p.1 = k
      · have hbeq : (k' == k) = false := by
          simp [BEq.beq]
          omega
        have hbeq2 : (k' == p.1) = false := by
          simp [BEq.beq]
          omega
        simp [dictSet, hp, dictGet, List.lookup, hbeq, hbeq2]
      · by_cases hq : k' = p.1
        · simp [dictSet, hp, dictGet, List.lookup, hq]
        · have hbeq2 : (k' == p.1) = false := by
            simp [BEq.beq]
            omega
          simp [dictSet, hp, dictGet, List.lookup, hbeq2] at ih ⊢
          exact ih

theorem dictGet_init_day (m : List (Nat × Nat)) (k k' : Nat) :
    dictGet (if dictContains m k then m else dictSet m k 0) k' =
      dictGet m k' := by
  by_cases hc : dictContains m k
  · simp [hc]
  · simp [hc]
    by_cases h : k' = k
    · subst h
      rw [dictGet_dictSet_self]
      simp [dictContains, Option.isSome_iff_exists] at hc
      simp [dictGet]
      cases hlk : m.lookup k' with
      | none => rfl
      | some v => exact absurd hlk (hc v)
    · exact dictGet_dictSet_ne m k 0 k' h

/-! ## Claim C6 -/

/-- C6: for every input candle series and every bar index `i`, the computed
`24h_low` column at `i` equals the minimum of the `low` values over bars
`max (0, i - window_size + 1) .. i` inclusive (expanding window,
`min_periods = 1`): it is a lower bound of those lows, it is attained by one
of them, and consequently `window_low i ≤ low i`. -/
theorem c6_window_low_is_trailing_min (data : List Bar) (window : Nat)
    (pct : Rat) (hw : 0 < window) (i : Nat)
    (hi : i < (calculate_24h_low_range data window pct).length)
    (hid : i < data.length) :
    (∀ j, ∀ hj : j < data.length, i + 1 - window ≤ j → j ≤ i →
      ((calculate_24h_low_range data window pct).get ⟨i, hi⟩).low24 ≤
        (data.get ⟨j, hj⟩).low) ∧
    (∃ j, ∃ hj : j < data.length, i + 1 - window ≤ j ∧ j ≤ i ∧
      ((calculate_24h_low_range data window pct).get ⟨i, hi⟩).low24 =
        (data.get ⟨j, hj⟩).low) ∧
    ((calculate_24h_low_range data window pct).get ⟨i, hi⟩).low24 ≤
      (data.get ⟨i, hid⟩).low := by
  have hrow := calculate_24h_low_range_get data window pct i hi hid
  have hlen : (data.map (·.low)).length = data.length := List.length_map data _
  have hmap : ∀ (j : Nat) (hj : j < data.length),
      (data.map (·.low)).get ⟨j, by rw [hlen]; exact hj⟩ =
        (data.get ⟨j, hj⟩).low := by
    intro j hj
    simp [List.get_eq_getElem, List.getElem_map]
  have hbound : ∀ (j : Nat) (hj : j < data.length), i + 1 - window ≤ j →
      j ≤ i →
      ((calculate_24h_low_range data window pct).get ⟨i, hi⟩).low24 ≤
        (data.get ⟨j, hj⟩).low := by
    intro j hj h1 h2
    rw [hrow]
    have := wlow_le window (data.map (·.low)) i hw
      (by rw [hlen]; exact hid) j (by rw [hlen]; exact hj) h1 h2
    rw [hmap j hj] at this
    exact this
  refine ⟨hbound, ?_, ?_⟩
  · obtain ⟨j, hj, h1, h2, heq⟩ :=
      wlow_attained window (data.map (·.low)) i hw (by rw [hlen]; exact hid)
    have hjd : j < data.length := by rw [← hlen]; exact hj
    refine ⟨j, hjd, h1, h2, ?_⟩
    rw [hrow]
    rw [← hmap j hjd]
    exact heq
  · exact hbound i hid (by omega) (le_refl i)

/-- C6 witness: the spec scenario (lows `[100, 98, 102]`, window 3): the
third bar's `24h_low` is at most its own low. -/
theorem c6_window_low_is_trailing_min_witness :
    0 < 3 ∧
    ((calculate_24h_low_range dataScenario 3 1).get ⟨2, by decide⟩).low24 ≤
      (dataScenario.get ⟨2, by decide⟩).low :=
  ⟨by decide,
    (c6_window_low_is_trailing_min dataScenario 3 1 (by decide) 2
      (by decide) (by decide)).2.2⟩

/-! ## Claim C7 -/

/-- C7: for every generated metric row, `in_buy_range` is true iff
`24h_low ≤ close ≤ 24h_low * (1 + range_pct / 100)` (closed on both ends);
and for rows with `24h_low > 0` this holds iff
`distance_from_low_pct = (close - 24h_low) / 24h_low * 100` lies in
`[0, range_pct]`. -/
theorem c7_in_range_iff_distance (pct : Rat) (data : List Bar) (i : Nat)
    (hi : i < (calculate_24h_low_metrics pct data).length)
    (hid : i < data.length) :
    (((calculate_24h_low_metrics pct data).get ⟨i, hi⟩).in_buy_range = true ↔
      (((calculate_24h_low_metrics pct data).get ⟨i, hi⟩).low24 ≤
          ((calculate_24h_low_metrics pct data).get ⟨i, hi⟩).close ∧
        ((calculate_24h_low_metrics pct data).get ⟨i, hi⟩).close ≤
          ((calculate_24h_low_metrics pct data).get ⟨i, hi⟩).low24 *
            (1 + pct / 100))) ∧
    (0 < ((calculate_24h_low_metrics pct data).get ⟨i, hi⟩).low24 →
      (((calculate_24h_low_metrics pct data).get ⟨i, hi⟩).in_buy_range = true ↔
        (0 ≤ ((calculate_24h_low_metrics pct data).get
            ⟨i, hi⟩).distance_from_low_pct ∧
          ((calculate_24h_low_metrics pct data).get
            ⟨i, hi⟩).distance_from_low_pct ≤ pct))) := by
  rw [calculate_24h_low_metrics_get pct data i hi hid]
  dsimp only
  constructor
  · simp [Bool.and_eq_true, decide_eq_true_eq]
  · intro hwl
    have key1 : wlow 1440 (data.map (·.low)) i ≤ (data.get ⟨i, hid⟩).close ↔
        0 ≤ ((data.get ⟨i, hid⟩).close - wlow 1440 (data.map (·.low)) i) /
          wlow 1440 (data.map (·.low)) i * 100 := by
      rw [div_mul_eq_mul_div, le_div_iff₀ hwl]
      constructor <;> intro h <;> nlinarith
    have key2 : (data.get ⟨i, hid⟩).close ≤
        wlow 1440 (data.map (·.low)) i * (1 + pct / 100) ↔
        ((data.get ⟨i, hid⟩).close - wlow 1440 (data.map (·.low)) i) /
          wlow 1440 (data.map (·.low)) i * 100 ≤ pct := by
      rw [div_mul_eq_mul_div, div_le_iff₀ hwl]
      constructor <;> intro h <;> nlinarith
    simp only [Bool.and_eq_true, decide_eq_true_eq]
    rw [← key1, ← key2]

/-- C7 witness: the spec scenario at the third bar (`24h_low = 98 > 0`,
close 102, range 1%): the in-range flag is equivalent to the distance lying
in `[0, 1]`. -/
theorem c7_in_range_iff_distance_witness :
    0 < ((calculate_24h_low_metrics 1 dataScenario).get
        ⟨2, by decide⟩).low24 ∧
    (((calculate_24h_low_metrics 1 dataScenario).get
        ⟨2, by decide⟩).in_buy_range = true ↔
      (0 ≤ ((calculate_24h_low_metrics 1 dataScenario).get
          ⟨2, by decide⟩).distance_from_low_pct ∧
        ((calculate_24h_low_metrics 1 dataScenario).get
          ⟨2, by decide⟩).distance_from_low_pct ≤ 1)) :=
  ⟨by decide,
    (c7_in_range_iff_distance 1 dataScenario 2 (by decide) (by decide)).2
      (by decide)⟩

/-! ## Lemmas about the buy-only loop body -/

theorem accDayInit_fields (s : AccState) (k : Nat) :
    (accDayInit s k).buys = s.buys ∧
    (accDayInit s k).remaining_capital = s.remaining_capital ∧
    (accDayInit s k).total_spent = s.total_spent ∧
    (accDayInit s k).total_coins_owned = s.total_coins_owned ∧
    (accDayInit s k).last_check_minute = s.last_check_minute := by
  unfold accDayInit
  split <;> exact ⟨rfl, rfl, rfl, rfl, rfl⟩

theorem accDayInit_dictGet (s : AccState) (k d : Nat) :
    dictGet (accDayInit s k).daily_buys d = dictGet s.daily_buys d := by
  unfold accDayInit
  split
  · exact dictGet_init_day s.daily_buys k d
  · rfl

theorem accStep_buy (mb : Rat) (mpd : Nat) (s : AccState) (row : SignalRow)
    (hfire : tsMinute row.timestamp ≠ s.last_check_minute)
    (hin : row.in_buy_range = true) (hcap : mb ≤ s.remaining_capital)
    (hday : dictGet s.daily_buys (tsDate row.timestamp) < mpd) :
    (accStep mb mpd s row).buys = s.buys ++
      [{ buy_price := row.close
         buy_amount := min mb s.remaining_capital
         coins_bought := min mb s.remaining_capital / row.close
         buy_time := row.timestamp
         low24 := row.low24
         distance_pct := (row.close - row.low24) / row.low24 * 100
         day := tsDate row.timestamp }] ∧
    (accStep mb mpd s row).total_coins_owned =
      s.total_coins_owned + min mb s.remaining_capital / row.close ∧
    (accStep mb mpd s row).remaining_capital =
      s.remaining_capital - min mb s.remaining_capital ∧
    (accStep mb mpd s row).total_spent =
      s.total_spent + min mb s.remaining_capital ∧
    (∀ d, dictGet (accStep mb mpd s row).daily_buys d =
      if d = tsDate row.timestamp then dictGet s.daily_buys d + 1
      else dictGet s.daily_buys d) ∧
    (accStep mb mpd s row).last_check_minute = tsMinute row.timestamp := by
  obtain ⟨hb, hr, hs, hc, hl⟩ := accDayInit_fields s (tsDate row.timestamp)
  have hd := accDayInit_dictGet s (tsDate row.timestamp)
  simp only [accStep]
  rw [hl, if_neg hfire]
  rw [if_pos]
  · refine ⟨?_, ?_, ?_, ?_, ?_, rfl⟩
    · dsimp only
      simp only [hb, hr, hd]
    · dsimp only
      simp only [hc, hr]
    · dsimp only
      simp only [hr]
    · dsimp only
      simp only [hs, hr]
    · intro d
      dsimp only
      by_cases hdd : d = tsDate row.timestamp
      · subst hdd
        simp [dictGet_dictSet_self, hd]
      · simp only [if_neg hdd, dictGet_dictSet_ne _ _ _ _ hdd, hd]
  · dsimp only
    simp only [hr, hd]
    exact ⟨hin, hcap, hday⟩

theorem accStep_noBuy (mb : Rat) (mpd : Nat) (s : AccState) (row : SignalRow)
    (hnb : tsMinute row.timestamp = s.last_check_minute ∨
      ¬(row.in_buy_range = true ∧ mb ≤ s.remaining_capital ∧
        dictGet s.daily_buys (tsDate row.timestamp) < mpd)) :
    (accStep mb mpd s row).buys = s.buys ∧
    (accStep mb mpd s row).total_coins_owned = s.total_coins_owned ∧
    (accStep mb mpd s row).remaining_capital = s.remaining_capital ∧
    (accStep mb mpd s row).total_spent = s.total_spent ∧
    (∀ d, dictGet (accStep mb mpd s row).daily_buys d =
      dictGet s.daily_buys d) ∧
    (tsMinute row.timestamp = s.last_check_minute →
      (accStep mb mpd s row).last_check_minute = s.last_check_minute) := by
  obtain ⟨hb, hr, hs, hc, hl⟩ := accDayInit_fields s (tsDate row.timestamp)
  have hd := accDayInit_dictGet s (tsDate row.timestamp)
  simp only [accStep]
  rw [hl]
  by_cases hmin : tsMinute row.timestamp = s.last_check_minute
  · rw [if_pos hmin]
    exact ⟨hb, hc, hr, hs, hd, fun _ => hl⟩
  · rw [if_neg hmin]
    rcases hnb with h | h
    · exact absurd h hmin
    · rw [if_neg]
      · exact ⟨hb, hc, hr, hs, hd, fun h2 => absurd h2 hmin⟩
      · dsimp only
        simp only [hr, hd]
        exact h

theorem countBuysOnDay_append (e : Nat) (l : List BuyRecord)
    (b : BuyRecord) :
    countBuysOnDay e (l ++ [b]) =
      countBuysOnDay e l + (if tsDate b.buy_time = e then 1 else 0) := by
  simp only [countBuysOnDay, List.filter_append, List.length_append]
  by_cases hp : tsDate b.buy_time = e <;> simp [hp, List.filter]

/-! ## Claim C3 -/

/-- C3: in the buy-only accumulation backtest, at every iteration of the bar
loop, `remaining_capital` plus the sum of `buy_amount` over all recorded buys
equals the initial `total_capital`; equivalently
`remaining_capital + total_spent = total_capital`. -/
theorem c3_capital_conservation (pct cap mb : Rat) (mpd : Nat)
    (data : List Bar) (k : Nat) :
    ((((calculate_24h_low_range data 1440 pct).take k).foldl
        (accStep mb mpd) (accInit cap)).remaining_capital +
      sumBuyAmounts ((((calculate_24h_low_range data 1440 pct).take k).foldl
        (accStep mb mpd) (accInit cap)).buys) = cap) ∧
    ((((calculate_24h_low_range data 1440 pct).take k).foldl
        (accStep mb mpd) (accInit cap)).total_spent =
      sumBuyAmounts ((((calculate_24h_low_range data 1440 pct).take k).foldl
        (accStep mb mpd) (accInit cap)).buys)) := by
  refine foldl_preserve (accStep mb mpd)
    (fun t => t.remaining_capital + sumBuyAmounts t.buys = cap ∧
      t.total_spent = sumBuyAmounts t.buys) ?_
    ((calculate_24h_low_range data 1440 pct).take k) (accInit cap) ?_
  · intro t row ht
    obtain ⟨h1, h2⟩ := ht
    by_cases hcond : tsMinute row.timestamp ≠ t.last_check_minute ∧
        row.in_buy_range = true ∧ mb ≤ t.remaining_capital ∧
        dictGet t.daily_buys (tsDate row.timestamp) < mpd
    · obtain ⟨hf, hi2, hc2, hd2⟩ := hcond
      obtain ⟨hb, _, hrem, hsp, _, _⟩ := accStep_buy mb mpd t row hf hi2 hc2 hd2
      constructor
      · rw [hrem, hb]
        simp only [sumBuyAmounts, List.map_append, List.sum_append,
          List.map_cons, List.map_nil, List.sum_cons, List.sum_nil,
          add_zero] at h1 ⊢
        linarith
      · rw [hsp, hb]
        simp only [sumBuyAmounts, List.map_append, List.sum_append,
          List.map_cons, List.map_nil, List.sum_cons, List.sum_nil,
          add_zero] at h2 ⊢
        linarith
    · have hnb : tsMinute row.timestamp = t.last_check_minute ∨
          ¬(row.in_buy_range = true ∧ mb ≤ t.remaining_capital ∧
            dictGet t.daily_buys (tsDate row.timestamp) < mpd) := by
        by_cases hm : tsMinute row.timestamp = t.last_check_minute
        · exact Or.inl hm
        · right
          intro hc3
          exact hcond ⟨hm, hc3⟩
      obtain ⟨hb, _, hrem, hsp, _, _⟩ := accStep_noBuy mb mpd t row hnb
      rw [hrem, hb, hsp]
      exact ⟨h1, h2⟩
  · constructor <;> simp [accInit, sumBuyAmounts]

/-! ## Claim C8 -/

/-- C8: in every run of the buy-only accumulation backtest (and at every
iteration), for every calendar date `d` the number of recorded buys whose bar
timestamp falls on `d` is at most `max_buys_per_day`. -/
theorem c8_daily_buy_cap (pct cap mb : Rat) (mpd : Nat) (data : List Bar)
    (k d : Nat) :
    countBuysOnDay d ((((calculate_24h_low_range data 1440 pct).take k).foldl
      (accStep mb mpd) (accInit cap)).buys) ≤ mpd := by
  have h := foldl_preserve (accStep mb mpd)
    (fun t => (∀ e, countBuysOnDay e t.buys = dictGet t.daily_buys e) ∧
      (∀ e, dictGet t.daily_buys e ≤ mpd)) ?_
    ((calculate_24h_low_range data 1440 pct).take k) (accInit cap) ?_
  · obtain ⟨hcount, hle⟩ := h
    rw [hcount d]
    exact hle d
  · intro t row ht
    obtain ⟨hcnt, hle⟩ := ht
    by_cases hcond : tsMinute row.timestamp ≠ t.last_check_minute ∧
        row.in_buy_range = true ∧ mb ≤ t.remaining_capital ∧
        dictGet t.daily_buys (tsDate row.timestamp) < mpd
    · obtain ⟨hf, hi2, hc2, hd2⟩ := hcond
      obtain ⟨hb, _, _, _, hdict, _⟩ := accStep_buy mb mpd t row hf hi2 hc2 hd2
      constructor
      · intro e
        rw [hb, countBuysOnDay_append, hdict e, hcnt e]
        by_cases he : e = tsDate row.timestamp
        · subst he
          simp
        · have hne : tsDate row.timestamp ≠ e := fun hh => he hh.symm
          simp [if_neg he, if_neg hne]
      · intro e
        rw [hdict e]
        by_cases he : e = tsDate row.timestamp
        · rw [if_pos he, he]
          omega
        · rw [if_neg he]
          exact hle e
    · have hnb : tsMinute row.timestamp = t.last_check_minute ∨
          ¬(row.in_buy_range = true ∧ mb ≤ t.remaining_capital ∧
            dictGet t.daily_buys (tsDate row.timestamp) < mpd) := by
        by_cases hm : tsMinute row.timestamp = t.last_check_minute
        · exact Or.inl hm
        · right
          intro hc3
          exact hcond ⟨hm, hc3⟩
      obtain ⟨hb, _, _, _, hdict, _⟩ := accStep_noBuy mb mpd t row hnb
      constructor
      · intro e
        rw [hb, hdict e]
        exact hcnt e
      · intro e
        rw [hdict e]
        exact hle e
  · constructor <;> intro e <;>
      simp [accInit, countBuysOnDay, dictGet, List.lookup]

/-! ## Claim C5 -/

/-- C5: in the buy-only accumulation backtest, at a check boundary a buy
executes iff `in_range` is true, `remaining_capital ≥ max_buy_amount`, and
the day's buy counter is under `max_buys_per_day`; an executed buy spends
`min(max_buy_amount, remaining_capital)`, adds `spent / close` coins,
decreases `remaining_capital` by the spent amount, increments the date's
counter, and appends a record carrying the 24h-low context to the buy log. -/
theorem c5_buy_execution (mb : Rat) (mpd : Nat) (s : AccState)
    (row : SignalRow)
    (hfire : tsMinute row.timestamp ≠ s.last_check_minute) :
    ((accStep mb mpd s row).buys ≠ s.buys ↔
      (row.in_buy_range = true ∧ mb ≤ s.remaining_capital ∧
        dictGet s.daily_buys (tsDate row.timestamp) < mpd)) ∧
    (row.in_buy_range = true → mb ≤ s.remaining_capital →
      dictGet s.daily_buys (tsDate row.timestamp) < mpd →
      ((accStep mb mpd s row).buys = s.buys ++
        [{ buy_price := row.close
           buy_amount := min mb s.remaining_capital
           coins_bought := min mb s.remaining_capital / row.close
           buy_time := row.timestamp
           low24 := row.low24
           distance_pct := (row.close - row.low24) / row.low24 * 100
           day := tsDate row.timestamp }] ∧
       (accStep mb mpd s row).total_coins_owned =
         s.total_coins_owned + min mb s.remaining_capital / row.close ∧
       (accStep mb mpd s row).remaining_capital =
         s.remaining_capital - min mb s.remaining_capital ∧
       dictGet (accStep mb mpd s row).daily_buys (tsDate row.timestamp) =
         dictGet s.daily_buys (tsDate row.timestamp) + 1)) := by
  constructor
  · constructor
    · intro hne
      by_contra hnc
      obtain ⟨hb, _⟩ := accStep_noBuy mb mpd s row (Or.inr hnc)
      exact hne hb
    · rintro ⟨hin, hcap, hday⟩
      obtain ⟨hb, _⟩ := accStep_buy mb mpd s row hfire hin hcap hday
      rw [hb]
      intro heq
      have hlen := congrArg List.length heq
      simp at hlen
  · intro hin hcap hday
    obtain ⟨hb, hco, hrem, _, hdict, _⟩ :=
      accStep_buy mb mpd s row hfire hin hcap hday
    refine ⟨hb, hco, hrem, ?_⟩
    rw [hdict]
    simp

/-- C5 witness: at the initial state with 1000 capital, a check boundary on an
in-range bar executes a buy iff the gates pass. -/
theorem c5_buy_execution_witness :
    tsMinute rowAtLow.timestamp ≠ (accInit 1000).last_check_minute ∧
    ((accStep 50 10 (accInit 1000) rowAtLow).buys ≠ (accInit 1000).buys ↔
      (rowAtLow.in_buy_range = true ∧
        (50 : Rat) ≤ (accInit 1000).remaining_capital ∧
        dictGet (accInit 1000).daily_buys (tsDate rowAtLow.timestamp) < 10)) :=
  ⟨by decide, (c5_buy_execution 50 10 (accInit 1000) rowAtLow (by decide)).1⟩

/-! ## Lemmas about the round-trip loop body -/

theorem rtStep_skip (tp sl : Rat) (s : RTState) (row : SignalRow)
    (h : tsMinute row.timestamp = s.last_check_minute) :
    rtStep tp sl s row = s := by
  simp only [rtStep]
  rw [if_pos h]

theorem rtStep_entry (tp sl : Rat) (s : RTState) (row : SignalRow)
    (hfire : tsMinute row.timestamp ≠ s.last_check_minute)
    (hin : row.in_buy_range = true) (hflat : s.position = 0) :
    rtStep tp sl s row =
      { position := 1
        entry_price := row.close
        coins_owned := s.portfolio_value / row.close
        trades := s.trades
        portfolio_value := s.portfolio_value
        last_check_minute := tsMinute row.timestamp } := by
  simp only [rtStep]
  rw [if_neg hfire, if_pos ⟨hin, hflat⟩]

theorem rtStep_trades_shape (tp sl : Rat) (s : RTState) (row : SignalRow) :
    ((rtStep tp sl s row).trades = s.trades ∧
      (rtStep tp sl s row).portfolio_value = s.portfolio_value) ∨
    ∃ tr : Trade, tr.entry_time = tr.exit_time ∧
      (rtStep tp sl s row).trades = s.trades ++ [tr] := by
  simp only [rtStep]
  split_ifs with h1 h2 h3 h4 h5
  · left; exact ⟨rfl, rfl⟩
  · left; exact ⟨rfl, rfl⟩
  · right; exact ⟨_, rfl, rfl⟩
  · right; exact ⟨_, rfl, rfl⟩
  · left; exact ⟨rfl, rfl⟩
  · left; exact ⟨rfl, rfl⟩

theorem rt_fold_minute_zero (tp sl : Rat) :
    ∀ (l : List SignalRow) (s : RTState),
      (∀ r ∈ l, tsMinute r.timestamp = 0) → s.last_check_minute = 0 →
      l.foldl (rtStep tp sl) s = s := by
  intro l
  induction l with
  | nil => intro s _ _; rfl
  | cons r rs ih =>
      intro s hall hl
      have h0 : tsMinute r.timestamp = 0 := hall r (List.mem_cons_self r rs)
      have hstep : rtStep tp sl s r = s :=
        rtStep_skip tp sl s r (by rw [h0, hl])
      calc (r :: rs).foldl (rtStep tp sl) s
          = rs.foldl (rtStep tp sl) (rtStep tp sl s r) := rfl
        _ = rs.foldl (rtStep tp sl) s := by rw [hstep]
        _ = s := ih s (fun x hx => hall x (List.mem_cons_of_mem r hx)) hl

theorem acc_fold_minute_zero (mb : Rat) (mpd : Nat) :
    ∀ (l : List SignalRow) (s : AccState),
      (∀ r ∈ l, tsMinute r.timestamp = 0) → s.last_check_minute = 0 →
      ((l.foldl (accStep mb mpd) s).buys = s.buys ∧
       (l.foldl (accStep mb mpd) s).remaining_capital = s.remaining_capital ∧
       (l.foldl (accStep mb mpd) s).total_coins_owned = s.total_coins_owned ∧
       (l.foldl (accStep mb mpd) s).last_check_minute = 0) := by
  intro l
  induction l with
  | nil => intro s _ hl; exact ⟨rfl, rfl, rfl, hl⟩
  | cons r rs ih =>
      intro s hall hl
      have h0 : tsMinute r.timestamp = 0 := hall r (List.mem_cons_self r rs)
      have hmin : tsMinute r.timestamp = s.last_check_minute := by
        rw [h0, hl]
      obtain ⟨hb, _, hr, _, _, hlast⟩ :=
        accStep_noBuy mb mpd s r (Or.inl hmin)
      have hco : (accStep mb mpd s r).total_coins_owned =
          s.total_coins_owned := (accStep_noBuy mb mpd s r (Or.inl hmin)).2.1
      have hl2 : (accStep mb mpd s r).last_check_minute = 0 := by
        rw [hlast hmin, hl]
      have hrest := ih (accStep mb mpd s r)
        (fun x hx => hall x (List.mem_cons_of_mem r hx)) hl2
      refine ⟨?_, ?_, ?_, hrest.2.2.2⟩
      · rw [show (r :: rs).foldl (accStep mb mpd) s =
            rs.foldl (accStep mb mpd) (accStep mb mpd s r) from rfl,
          hrest.1, hb]
      · rw [show (r :: rs).foldl (accStep mb mpd) s =
            rs.foldl (accStep mb mpd) (accStep mb mpd s r) from rfl,
          hrest.2.1, hr]
      · rw [show (r :: rs).foldl (accStep mb mpd) s =
            rs.foldl (accStep mb mpd) (accStep mb mpd s r) from rfl,
          hrest.2.2.1, hco]

theorem calc_take_minute_zero (data : List Bar) (w : Nat) (pct : Rat)
    (k : Nat) (h : ∀ b ∈ data.take k, tsMinute b.timestamp = 0) :
    ∀ r ∈ (calculate_24h_low_range data w pct).take k,
      tsMinute r.timestamp = 0 := by
  intro r hr
  rw [List.mem_iff_get] at hr
  obtain ⟨⟨j, hj⟩, hget⟩ := hr
  have hj2 := hj
  simp only [List.length_take] at hj2
  have hjk : j < k := lt_of_lt_of_le hj2 (min_le_left _ _)
  have hjlen : j < (calculate_24h_low_range data w pct).length :=
    lt_of_lt_of_le hj2 (min_le_right _ _)
  have hjd : j < data.length := by
    rw [calculate_24h_low_range_length] at hjlen
    exact hjlen
  have hget2 : ((calculate_24h_low_range data w pct).take k).get ⟨j, hj⟩ =
      (calculate_24h_low_range data w pct).get ⟨j, hjlen⟩ := by
    simp [List.get_eq_getElem, List.getElem_take]
  have hb : data.get ⟨j, hjd⟩ ∈ data.take k := by
    rw [List.mem_iff_get]
    refine ⟨⟨j, ?_⟩, ?_⟩
    · simp only [List.length_take]
      exact lt_min hjk hjd
    · simp [List.get_eq_getElem, List.getElem_take]
  have hts := h _ hb
  rw [← hget, hget2, calculate_24h_low_range_get data w pct j hjlen hjd]
  exact hts

/-! ## Claim C9 -/

/-- C9: in the round-trip backtest, every trade record appended on a
TAKE_PROFIT or STOP_LOSS exit receives the exit bar's timestamp in both
`entry_time` and `exit_time`, so every closed trade in the output has
`entry_time = exit_time` regardless of when the entry occurred. -/
theorem c9_trade_times_equal (pct psz tp sl : Rat) (data : List Bar)
    (t : Trade)
    (ht : t ∈ (backtest_24h_low_strategy data pct psz tp sl).trades) :
    t.entry_time = t.exit_time := by
  have h := foldl_preserve (rtStep tp sl)
    (fun s => ∀ tr ∈ s.trades, tr.entry_time = tr.exit_time) ?_
    (calculate_24h_low_range data 1440 pct) (rtInit psz) ?_
  · exact h t ht
  · intro s row hs tr htr
    rcases rtStep_trades_shape tp sl s row with ⟨hsh, _⟩ | ⟨tr2, htr2, hsh⟩
    · exact hs tr (hsh ▸ htr)
    · rw [hsh] at htr
      rcases List.mem_append.mp htr with h1 | h1
      · exact hs tr h1
      · have heq : tr = tr2 := by simpa using h1
        rw [heq]
        exact htr2
  · intro tr htr
    simp [rtInit] at htr

/-- C9 witness: the two-bar take-profit run produces exactly one trade, whose
`entry_time` and `exit_time` are both the exit bar's timestamp. -/
theorem c9_trade_times_equal_witness :
    (Trade.mk 100 105 50 5 2 2 10 "TAKE_PROFIT").entry_time =
    (Trade.mk 100 105 50 5 2 2 10 "TAKE_PROFIT").exit_time :=
  c9_trade_times_equal 2 1000 5 3 dataOneTrade
    (Trade.mk 100 105 50 5 2 2 10 "TAKE_PROFIT")
    (by with_unfolding_all decide)

/-! ## Claim C10 -/

/-- C10: in both backtest variants the minute tracker starts at 0 and a check
boundary fires only when the bar's minute component differs from it; hence on
a leading run of bars whose timestamp minute component is 0 no buy (and, in
the round-trip variant, no exit) ever fires, even when `in_range` is true:
the round-trip state is still the initial state and the buy-only ledger has
no buys, full capital and no coins. -/
theorem c10_minute_zero_prefix_inert (pct psz tp sl cap mb : Rat)
    (mpd : Nat) (data : List Bar) (k : Nat)
    (h0 : ∀ b ∈ data.take k, tsMinute b.timestamp = 0) :
    ((((calculate_24h_low_range data 1440 pct).take k).foldl
        (rtStep tp sl) (rtInit psz)) = rtInit psz) ∧
    ((((calculate_24h_low_range data 1440 pct).take k).foldl
        (accStep mb mpd) (accInit cap)).buys = [] ∧
      (((calculate_24h_low_range data 1440 pct).take k).foldl
        (accStep mb mpd) (accInit cap)).remaining_capital = cap ∧
      (((calculate_24h_low_range data 1440 pct).take k).foldl
        (accStep mb mpd) (accInit cap)).total_coins_owned = 0) := by
  have hrows := calc_take_minute_zero data 1440 pct k h0
  constructor
  · exact rt_fold_minute_zero tp sl _ (rtInit psz) hrows rfl
  · have h := acc_fold_minute_zero mb mpd _ (accInit cap) hrows rfl
    exact ⟨h.1, h.2.1, h.2.2.1⟩

/-- C10 witness: two in-range bars with minute component 0 leave the
round-trip backtest in its initial state. -/
theorem c10_minute_zero_prefix_inert_witness :
    (∀ b ∈ dataMinuteZero.take 2, tsMinute b.timestamp = 0) ∧
    (((calculate_24h_low_range dataMinuteZero 1440 2).take 2).foldl
      (rtStep 5 3) (rtInit 1000)) = rtInit 1000 :=
  ⟨by decide,
    (c10_minute_zero_prefix_inert 2 1000 5 3 1000 50 10 dataMinuteZero 2
      (by decide)).1⟩

/-! ## Claim C1 -/

/-- C1 counterexample: with range 2%, position size 1000, take-profit 5% and
stop-loss 3%, the three-bar series `dataReentry` produces an entry, a
take-profit exit (lifting the portfolio to 1050), and a second FLAT → LONG
entry at close 100 whose recorded quantity is `1050 / 100 = 21/2`, not
`position_size_usd / entry_price = 1000 / 100 = 10`. -/
theorem c1_counterexample :
    (((calculate_24h_low_range dataReentry 1440 2).take 2).foldl (rtStep 5 3)
      (rtInit 1000)).position = 0 ∧
    ((calculate_24h_low_range dataReentry 1440 2).get
      ⟨2, by decide⟩).in_buy_range = true ∧
    (backtest_24h_low_strategy dataReentry 2 1000 5 3).position = 1 ∧
    (backtest_24h_low_strategy dataReentry 2 1000 5 3).entry_price = 100 ∧
    (backtest_24h_low_strategy dataReentry 2 1000 5 3).coins_owned = 21 / 2 ∧
    ¬((backtest_24h_low_strategy dataReentry 2 1000 5 3).coins_owned =
        1000 / (backtest_24h_low_strategy dataReentry 2 1000 5 3).entry_price) := by
  with_unfolding_all decide

/-- C1 (amended): at every FLAT → LONG transition (check boundary, in range,
no position) the round-trip engine records `entry_price = close` and quantity
`portfolio_value / close` where `portfolio_value` is the running portfolio
value; that value equals the configured `position_size_usd` only while no
trade has been closed yet (in particular for the first entry of a run). -/
theorem c1_entry_quantity_from_portfolio (pct psz tp sl : Rat)
    (data : List Bar) (i : Nat)
    (hi : i < (calculate_24h_low_range data 1440 pct).length)
    (hfire : tsMinute ((calculate_24h_low_range data 1440 pct).get
        ⟨i, hi⟩).timestamp ≠
      (((calculate_24h_low_range data 1440 pct).take i).foldl (rtStep tp sl)
        (rtInit psz)).last_check_minute)
    (hin : ((calculate_24h_low_range data 1440 pct).get
      ⟨i, hi⟩).in_buy_range = true)
    (hflat : (((calculate_24h_low_range data 1440 pct).take i).foldl
      (rtStep tp sl) (rtInit psz)).position = 0) :
    (((calculate_24h_low_range data 1440 pct).take (i + 1)).foldl
      (rtStep tp sl) (rtInit psz)).position = 1 ∧
    (((calculate_24h_low_range data 1440 pct).take (i + 1)).foldl
      (rtStep tp sl) (rtInit psz)).entry_price =
      ((calculate_24h_low_range data 1440 pct).get ⟨i, hi⟩).close ∧
    (((calculate_24h_low_range data 1440 pct).take (i + 1)).foldl
      (rtStep tp sl) (rtInit psz)).coins_owned =
      (((calculate_24h_low_range data 1440 pct).take i).foldl (rtStep tp sl)
        (rtInit psz)).portfolio_value /
        ((calculate_24h_low_range data 1440 pct).get ⟨i, hi⟩).close ∧
    ((((calculate_24h_low_range data 1440 pct).take i).foldl (rtStep tp sl)
        (rtInit psz)).trades = [] →
      (((calculate_24h_low_range data 1440 pct).take i).foldl (rtStep tp sl)
        (rtInit psz)).portfolio_value = psz) := by
  have hstep := foldl_take_succ (rtStep tp sl) (rtInit psz)
    (calculate_24h_low_range data 1440 pct) i hi
  have hentry := rtStep_entry tp sl
    (((calculate_24h_low_range data 1440 pct).take i).foldl (rtStep tp sl)
      (rtInit psz))
    ((calculate_24h_low_range data 1440 pct).get ⟨i, hi⟩) hfire hin hflat
  rw [hstep, hentry]
  refine ⟨rfl, rfl, rfl, ?_⟩
  refine foldl_preserve (rtStep tp sl)
    (fun s => s.trades = [] → s.portfolio_value = psz) ?_
    ((calculate_24h_low_range data 1440 pct).take i) (rtInit psz)
    (fun _ => rfl)
  intro s row hP
  rcases rtStep_trades_shape tp sl s row with ⟨htr, hpv⟩ | ⟨tr2, _, hsh⟩
  · intro hnil
    rw [hpv]
    exact hP (htr ▸ hnil)
  · intro hnil
    rw [hsh] at hnil
    simp at hnil

/-- C1 witness: the first entry of the `dataReentry` run records quantity
equal to the running portfolio value (still the initial 1000) divided by the
close. -/
theorem c1_entry_quantity_from_portfolio_witness :
    (((calculate_24h_low_range dataReentry 1440 2).take 1).foldl (rtStep 5 3)
      (rtInit 1000)).coins_owned =
      (((calculate_24h_low_range dataReentry 1440 2).take 0).foldl (rtStep 5 3)
        (rtInit 1000)).portfolio_value /
        ((calculate_24h_low_range dataReentry 1440 2).get ⟨0, by decide⟩).close :=
  (c1_entry_quantity_from_portfolio 2 1000 5 3 dataReentry 0 (by decide)
    (by decide) (by with_unfolding_all decide) (by decide)).2.2.1

/-! ## Lemmas about the live decision engine -/

theorem can_buy_time_wise_iff (cfg : BotConfig)
    (lbts : List (String × Int)) (now : Int) (coin : String) :
    can_buy_time_wise cfg lbts now coin = true ↔
      (lbts.lookup coin = none ∨
        ∃ last, lbts.lookup coin = some last ∧
          cfg.buy_block_minutes * 60 ≤ now - last) := by
  unfold can_buy_time_wise
  cases h : lbts.lookup coin with
  | none => simp
  | some last => simp [decide_eq_true_eq]

theorem can_buy_more_fst_iff (cfg : BotConfig) (coin : String)
    (user_state : Except String (List (String × PositionData)))
    (all_mids : Except String (List (String × Rat))) :
    (can_buy_more cfg coin user_state all_mids).1 = true ↔
      cfg.position_value_usd ≤ cfg.max_position_value_usd -
        get_position_value_usd coin user_state all_mids := by
  simp [can_buy_more, decide_eq_true_eq]

/-! ## Claim C4 -/

/-- C4: per analyzed coin, the live cycle emits a market-buy action iff the
buy signal is set AND `max_position_value_usd − current_position_value ≥
position_value_usd` AND the time gate passes (no prior recorded buy, or
`now − last_buy ≥` the block duration); otherwise the action is `NONE` with
the diagnostic chosen in priority order: no signal, then time-blocked, then
capacity-blocked; the trailing "waiting" message is unreachable. -/
theorem c4_buy_iff_gates (cfg : BotConfig) (analysis : Analysis)
    (user_state : Except String (List (String × PositionData)))
    (all_mids : Except String (List (String × Rat)))
    (lbts : List (String × Int)) (now : Int)
    (sz_decimals : List (String × Nat))
    (order_response : Except String Bool) :
    ((process_coin_analysis cfg analysis user_state all_mids lbts now
        sz_decimals order_response).action = "MARKET_BUY" ↔
      (analysis.buy_signal = true ∧
        cfg.position_value_usd ≤ cfg.max_position_value_usd -
          get_position_value_usd analysis.coin user_state all_mids ∧
        (lbts.lookup analysis.coin = none ∨
          ∃ last, lbts.lookup analysis.coin = some last ∧
            cfg.buy_block_minutes * 60 ≤ now - last))) ∧
    (analysis.buy_signal = false →
      (process_coin_analysis cfg analysis user_state all_mids lbts now
        sz_decimals order_response).action = "NONE" ∧
      (process_coin_analysis cfg analysis user_state all_mids lbts now
        sz_decimals order_response).message = MessageTag.noSignal) ∧
    (analysis.buy_signal = true →
      ¬(lbts.lookup analysis.coin = none ∨
        ∃ last, lbts.lookup analysis.coin = some last ∧
          cfg.buy_block_minutes * 60 ≤ now - last) →
      (process_coin_analysis cfg analysis user_state all_mids lbts now
        sz_decimals order_response).action = "NONE" ∧
      (process_coin_analysis cfg analysis user_state all_mids lbts now
        sz_decimals order_response).message = MessageTag.timeBlocked) ∧
    (analysis.buy_signal = true →
      (lbts.lookup analysis.coin = none ∨
        ∃ last, lbts.lookup analysis.coin = some last ∧
          cfg.buy_block_minutes * 60 ≤ now - last) →
      ¬(cfg.position_value_usd ≤ cfg.max_position_value_usd -
        get_position_value_usd analysis.coin user_state all_mids) →
      (process_coin_analysis cfg analysis user_state all_mids lbts now
        sz_decimals order_response).action = "NONE" ∧
      ((process_coin_analysis cfg analysis user_state all_mids lbts now
          sz_decimals order_response).message =
            MessageTag.positionLimitReached ∨
        (process_coin_analysis cfg analysis user_state all_mids lbts now
          sz_decimals order_response).message =
            MessageTag.insufficientCapacity)) ∧
    (process_coin_analysis cfg analysis user_state all_mids lbts now
      sz_decimals order_response).message ≠ MessageTag.waiting := by
  have htime := can_buy_time_wise_iff cfg lbts now analysis.coin
  have hcapiff := can_buy_more_fst_iff cfg analysis.coin user_state all_mids
  by_cases hsig : analysis.buy_signal = true
  · by_cases htw : can_buy_time_wise cfg lbts now analysis.coin = true
    · by_cases hcap : (can_buy_more cfg analysis.coin user_state
        all_mids).1 = true
      · -- buy branch
        have hres : (process_coin_analysis cfg analysis user_state all_mids
            lbts now sz_decimals order_response).action = "MARKET_BUY" ∧
            (process_coin_analysis cfg analysis user_state all_mids lbts now
              sz_decimals order_response).message =
              MessageTag.marketBuyOutcome := by
          simp only [process_coin_analysis]
          rw [if_pos ⟨hsig, hcap, htw⟩]
          exact ⟨rfl, rfl⟩
        refine ⟨⟨fun _ => ⟨hsig, hcapiff.mp hcap, htime.mp htw⟩,
          fun _ => hres.1⟩, ?_, ?_, ?_, ?_⟩
        · intro hf
          rw [hf] at hsig
          cases hsig
        · intro _ hng
          exact absurd (htime.mp htw) hng
        · intro _ _ hnc
          exact absurd (hcapiff.mp hcap) hnc
        · rw [hres.2]
          decide
      · -- capacity-blocked branch
        have hres : (process_coin_analysis cfg analysis user_state all_mids
            lbts now sz_decimals order_response).action = "NONE" ∧
            (process_coin_analysis cfg analysis user_state all_mids lbts now
              sz_decimals order_response).message =
              (if cfg.max_position_value_usd ≤
                  (can_buy_more cfg analysis.coin user_state all_mids).2.1
                then MessageTag.positionLimitReached
                else MessageTag.insufficientCapacity) := by
          simp only [process_coin_analysis]
          rw [if_neg (fun h => hcap h.2.1)]
          refine ⟨rfl, ?_⟩
          rw [if_neg (fun h => h hsig), if_neg (fun h => h htw), if_pos hcap]
        refine ⟨⟨?_, ?_⟩, ?_, ?_, ?_, ?_⟩
        · intro h
          rw [hres.1] at h
          exact absurd h (by decide)
        · rintro ⟨_, hc, _⟩
          exact absurd (hcapiff.mpr hc) hcap
        · intro hf
          rw [hf] at hsig
          cases hsig
        · intro _ hng
          exact absurd (htime.mp htw) hng
        · intro _ _ _
          refine ⟨hres.1, ?_⟩
          rw [hres.2]
          by_cases hb : cfg.max_position_value_usd ≤
              (can_buy_more cfg analysis.coin user_state all_mids).2.1
          · rw [if_pos hb]
            exact Or.inl rfl
          · rw [if_neg hb]
            exact Or.inr rfl
        · rw [hres.2]
          by_cases hb : cfg.max_position_value_usd ≤
              (can_buy_more cfg analysis.coin user_state all_mids).2.1
          · rw [if_pos hb]
            decide
          · rw [if_neg hb]
            decide
    · -- time-blocked branch
      have hres : (process_coin_analysis cfg analysis user_state all_mids
          lbts now sz_decimals order_response).action = "NONE" ∧
          (process_coin_analysis cfg analysis user_state all_mids lbts now
            sz_decimals order_response).message = MessageTag.timeBlocked := by
        simp only [process_coin_analysis]
        rw [if_neg (fun h => htw h.2.2)]
        refine ⟨rfl, ?_⟩
        rw [if_neg (fun h => h hsig), if_pos htw]
      refine ⟨⟨?_, ?_⟩, ?_, ?_, ?_, ?_⟩
      · intro h
        rw [hres.1] at h
        exact absurd h (by decide)
      · rintro ⟨_, _, hg⟩
        exact absurd (htime.mpr hg) htw
      · intro hf
        rw [hf] at hsig
        cases hsig
      · intro _ _
        exact hres
      · intro _ hg _
        exact absurd (htime.mpr hg) htw
      · rw [hres.2]
        decide
  · -- no-signal branch
    have hres : (process_coin_analysis cfg analysis user_state all_mids lbts
        now sz_decimals order_response).action = "NONE" ∧
        (process_coin_analysis cfg analysis user_state all_mids lbts now
          sz_decimals order_response).message = MessageTag.noSignal := by
      simp only [process_coin_analysis]
      rw [if_neg (fun h => hsig h.1)]
      refine ⟨rfl, ?_⟩
      rw [if_pos hsig]
    refine ⟨⟨?_, ?_⟩, ?_, ?_, ?_, ?_⟩
    · intro h
      rw [hres.1] at h
      exact absurd h (by decide)
    · rintro ⟨hs, _, _⟩
      exact absurd hs hsig
    · intro _
      exact hres
    · intro hs
      exact absurd hs hsig
    · intro hs
      exact absurd hs hsig
    · rw [hres.2]
      decide

/-- C4 witness: with no buy signal the cycle emits `NONE` with the no-signal
diagnostic. -/
theorem c4_buy_iff_gates_witness :
    (process_coin_analysis defaultConfig analysisWait (.ok []) (.ok []) [] 0
      [] (.ok true)).action = "NONE" ∧
    (process_coin_analysis defaultConfig analysisWait (.ok []) (.ok []) [] 0
      [] (.ok true)).message = MessageTag.noSignal :=
  (c4_buy_iff_gates defaultConfig analysisWait (.ok []) (.ok []) [] 0 []
    (.ok true)).2.1 rfl

/-! ## Claim C2 -/

/-- C2 counterexample: with a buy-signal analysis for XRP and a failing
position/account query (`user_state` raises), the cycle does not surface any
failure: `get_position_value_usd` returns 0, and the cycle proceeds to emit a
successful MARKET_BUY action with `current_value = 0`. -/
theorem c2_counterexample :
    get_position_value_usd "XRP" (Except.error "connection lost")
      (Except.error "connection lost") = 0 ∧
    (process_coin_analysis defaultConfig analysisBuy
      (Except.error "connection lost") (Except.error "connection lost") [] 0
      [("XRP", 6)] (Except.ok true)).action = "MARKET_BUY" ∧
    (process_coin_analysis defaultConfig analysisBuy
      (Except.error "connection lost") (Except.error "connection lost") [] 0
      [("XRP", 6)] (Except.ok true)).current_value = 0 ∧
    (process_coin_analysis defaultConfig analysisBuy
      (Except.error "connection lost") (Except.error "connection lost") [] 0
      [("XRP", 6)] (Except.ok true)).success = true := by
  with_unfolding_all decide

/-- C2 (amended): a failure of the position/account query is caught inside
the helpers -- `get_current_positions` returns the empty mapping and
`get_position_value_usd` returns 0.0 -- and the cycle proceeds exactly as if
the account held no position for the coin: no typed failure reaches the
caller of the cycle, and the capacity gate is evaluated with current position
value 0. -/
theorem c2_failed_query_swallowed_to_zero (cfg : BotConfig)
    (analysis : Analysis) (e : String)
    (all_mids : Except String (List (String × Rat)))
    (lbts : List (String × Int)) (now : Int)
    (sz_decimals : List (String × Nat))
    (order_response : Except String Bool) :
    get_current_positions (Except.error e) = [] ∧
    get_position_value_usd analysis.coin (Except.error e) all_mids = 0 ∧
    process_coin_analysis cfg analysis (Except.error e) all_mids lbts now
        sz_decimals order_response =
      process_coin_analysis cfg analysis (Except.ok []) all_mids lbts now
        sz_decimals order_response := by
  have h1 : has_position analysis.coin (Except.error e) =
      has_position analysis.coin (Except.ok []) := rfl
  have h2 : can_buy_more cfg analysis.coin (Except.error e) all_mids =
      can_buy_more cfg analysis.coin (Except.ok []) all_mids := rfl
  refine ⟨rfl, rfl, ?_⟩
  simp only [process_coin_analysis]
  rw [h1, h2]
